import Mathlib

/-!
Shallow embedding of the BGS indexing core of the `alimony/indigo` repository
(`src/bgs/handlers.go`, which concatenates the `bgs` XRPC handlers and the
`indexer` package).  Relational tables are embedded as lists of rows, gorm
queries as list operations, and the external collaborators (repo manager,
PDS transport, notification backend) as explicit oracles recording their
outcomes.  All definitions are translated from the Go source; theorems at the
end of the file settle the specification claims against them.
-/

/-- Row of the vote table (`models.VoteRecord`): like records are keyed by
`(voter, rkey)` and point at the liked post (`post` = FeedPost primary key). -/
structure VoteRecord where
  id : Nat
  voter : Nat
  rkey : String
  post : Nat
  cid : String
deriving Repr, DecidableEq

/-- Row of the post table (`models.FeedPost`), keyed by `(author, rkey)`.
`missing = true` marks a forward-reference placeholder; `upCount` is the
denormalized like counter adjusted by the like create/delete handlers. -/
structure FeedPost where
  id : Nat
  author : Nat
  rkey : String
  cid : String
  replyTo : Nat
  deleted : Bool
  missing : Bool
  upCount : Int
deriving Repr, DecidableEq

/-- Row of the actor table (`models.ActorInfo`). -/
structure ActorInfo where
  uid : Nat
  did : String
  handle : String
  displayName : String
  pds : Nat
deriving Repr, DecidableEq

/-- Row of the repost table (`models.RepostRecord`), keyed by `(reposter, rkey)`. -/
structure RepostRecord where
  reposter : Nat
  rkey : String
  post : Nat
  author : Nat
  cid : String
deriving Repr, DecidableEq

/-- Row of the follow table (`models.FollowRecord`), keyed by `(follower, rkey)`.
`handleInitActor` inserts a row with only `Follower` and `Target` set, so the
string fields default to the empty string there. -/
structure FollowRecord where
  follower : Nat
  target : Nat
  rkey : String
  cid : String
deriving Repr, DecidableEq

/-- The indexer's relational store: the tables the record-level handlers in
`indexer/handlers.go` write to, plus the auto-increment counters gorm assigns
primary keys from.  Freshly assigned ids are always positive, matching gorm's
behavior that `ID == 0` means "no row". -/
structure IndexDB where
  actors : List ActorInfo
  posts : List FeedPost
  votes : List VoteRecord
  reposts : List RepostRecord
  follows : List FollowRecord
  nextVoteId : Nat
  nextPostId : Nat
deriving Repr, DecidableEq

/-- The zero `models.VoteRecord`, what a gorm `Find` into a struct leaves
behind when no row matches. -/
def zeroVoteRecord : VoteRecord :=
  { id := 0, voter := 0, rkey := "", post := 0, cid := "" }

/-- `UPDATE feed_posts SET up_count = up_count + d WHERE id = pid`. -/
def bumpUpCount (posts : List FeedPost) (pid : Nat) (d : Int) : List FeedPost :=
  posts.map (fun p => if p.id == pid then { p with upCount := p.upCount + d } else p)

/-- `handleRecordCreateFeedLike`: the subject post is resolved by
`GetPostOrMissing` (here already resolved to `postId`); then the handler runs
`db.Create(&vr)` followed by a separate
`db.Model(FeedPost).Where(id).Update("up_count", up_count + 1)` call.
The two writes are distinct top-level db calls in the source, not a
transaction; this definition gives their combined success-path state. -/
def handleRecordCreateFeedLike (db : IndexDB) (voter : Nat) (rkey : String)
    (postId : Nat) (cid : String) : IndexDB :=
  { db with
    votes := db.votes ++ [⟨db.nextVoteId, voter, rkey, postId, cid⟩]
    nextVoteId := db.nextVoteId + 1
    posts := bumpUpCount db.posts postId 1 }

/-- `handleRecordDeleteFeedLike`: `db.Find(&vr, "voter = ? AND rkey = ?", ...)`
(zero record if no row), then inside one transaction delete the vote row by id
and run `up_count = up_count - 1` on the post it pointed at. -/
def handleRecordDeleteFeedLike (db : IndexDB) (voter : Nat) (rkey : String) : IndexDB :=
  let vr := (db.votes.find? (fun v => v.voter == voter && v.rkey == rkey)).getD zeroVoteRecord
  { db with
    votes := db.votes.filter (fun v => !(v.id == vr.id))
    posts := bumpUpCount db.posts vr.post (-1) }

/-- Fallible version of `handleRecordCreateFeedLike`.  The source issues the
`VoteRecord` insert and the `up_count` increment as two separate top-level
database calls with no surrounding transaction; `insOk` and `updOk` inject
each call's success.  The returned state is what persists; the Bool is the
handler's success. -/
def handleRecordCreateFeedLikeFallible (insOk updOk : Bool) (db : IndexDB)
    (voter : Nat) (rkey : String) (postId : Nat) (cid : String) : IndexDB × Bool :=
  if insOk = false then (db, false)
  else
    let db1 := { db with
      votes := db.votes ++ [⟨db.nextVoteId, voter, rkey, postId, cid⟩]
      nextVoteId := db.nextVoteId + 1 }
    if updOk = false then (db1, false)
    else ({ db1 with posts := bumpUpCount db1.posts postId 1 }, true)

/-- Fallible version of `handleRecordDeleteFeedLike`.  The source wraps the
vote-row delete and the `up_count` decrement in `db.Transaction`, so an error
from either step rolls the whole transaction back and no change persists. -/
def handleRecordDeleteFeedLikeFallible (delOk updOk : Bool) (db : IndexDB)
    (voter : Nat) (rkey : String) : IndexDB × Bool :=
  if delOk && updOk then (handleRecordDeleteFeedLike db voter rkey, true)
  else (db, false)

/-- One like operation on the vote index, as processed by the indexer. -/
inductive LikeOp where
  | create (voter : Nat) (rkey : String) (postId : Nat) (cid : String)
  | delete (voter : Nat) (rkey : String)
deriving Repr, DecidableEq

/-- Apply one like operation through the corresponding handler. -/
def applyLikeOp (db : IndexDB) : LikeOp → IndexDB
  | .create voter rkey postId cid => handleRecordCreateFeedLike db voter rkey postId cid
  | .delete voter rkey => handleRecordDeleteFeedLike db voter rkey

/-- Apply a sequence of like operations in order. -/
def applyLikeOps (db : IndexDB) : List LikeOp → IndexDB
  | [] => db
  | op :: rest => applyLikeOps (applyLikeOp db op) rest

/-- The side conditions claim C1 places on a like sequence: every create uses
a `(voter, rkey)` pair with no existing vote row, every delete matches an
existing vote row. -/
def validLikeOps : IndexDB → List LikeOp → Bool
  | _, [] => true
  | db, .create voter rkey postId cid :: rest =>
    db.votes.all (fun v => !(v.voter == voter && v.rkey == rkey)) &&
      validLikeOps (handleRecordCreateFeedLike db voter rkey postId cid) rest
  | db, .delete voter rkey :: rest =>
    db.votes.any (fun v => v.voter == voter && v.rkey == rkey) &&
      validLikeOps (handleRecordDeleteFeedLike db voter rkey) rest

/-- Number of vote rows whose `post` field is `pid`. -/
def voteCount (votes : List VoteRecord) (pid : Nat) : Nat :=
  votes.countP (fun v => v.post == pid)

/-- Database well-formedness for the like index: vote primary keys are
distinct and below the auto-increment counter, and every post's stored
`up_count` equals the number of vote rows pointing at it. -/
def likeWF (db : IndexDB) : Prop :=
  (db.votes.map VoteRecord.id).Nodup ∧
  (∀ v ∈ db.votes, v.id < db.nextVoteId) ∧
  (∀ p ∈ db.posts, p.upCount = (voteCount db.votes p.id : Int))

instance (db : IndexDB) : Decidable (likeWF db) := by
  unfold likeWF; infer_instance

/-- `handleRecordDelete`: per-collection dispatch for delete ops.  Note the
like branch matches the legacy collection name `app.bsky.feed.vote`; any
other collection, including `app.bsky.feed.like`, falls to the default
`unrecognized record type` error. -/
def handleRecordDelete (db : IndexDB) (user : Nat) (collection rkey : String) :
    Except String IndexDB :=
  if collection = "app.bsky.feed.post" then
    match db.posts.find? (fun p => p.rkey == rkey && p.author == user) with
    | none => Except.ok db
    | some fp =>
      Except.ok { db with
        posts := db.posts.map (fun p => if p.id == fp.id then { p with deleted := true } else p) }
  else if collection = "app.bsky.feed.repost" then
    Except.ok { db with
      reposts := db.reposts.filter (fun r => !(r.reposter == user && r.rkey == rkey)) }
  else if collection = "app.bsky.feed.vote" then
    Except.ok (handleRecordDeleteFeedLike db user rkey)
  else if collection = "app.bsky.graph.follow" then
    Except.ok { db with
      follows := db.follows.filter (fun f => !(f.follower == user && f.rkey == rkey)) }
  else if collection = "app.bsky.graph.confirmation" then
    Except.ok db
  else
    Except.error ("unrecognized record type (delete): " ++ collection)

/-- `handleInitActor`: upsert the actor row on conflict by uid
(`clause.OnConflict{Columns: uid, UpdateAll: true}`), then insert a
`FollowRecord` whose `Follower` and `Target` are both the new actor. -/
def handleInitActor (db : IndexDB) (user : Nat) (did handle displayName : String)
    (pds : Nat) : IndexDB :=
  let ai : ActorInfo := ⟨user, did, handle, displayName, pds⟩
  let actors :=
    if db.actors.any (fun a => a.uid == user) then
      db.actors.map (fun a => if a.uid == user then ai else a)
    else db.actors ++ [ai]
  { db with
    actors := actors
    follows := db.follows ++ [⟨user, user, "", ""⟩] }

/-- `handleRecordCreateFeedPost` (reply and mention resolution abstracted into
the already-resolved `replyTo` id): `db.Find(&maybe, "rkey = ? AND author = ?")`
leaves a zero record if no row exists; if `maybe.ID != 0` the handler runs an
upsert keyed on `(rkey, author)` with `UpdateAll` (primary key preserved,
every other column overwritten from the new record), otherwise it inserts a
fresh row.  A duplicate create (`maybe.Missing == false`) only logs a warning
and takes the same upsert path. -/
def handleRecordCreateFeedPost (db : IndexDB) (user : Nat) (rkey rcid : String)
    (replyTo : Nat) : IndexDB :=
  let maybe := (db.posts.find? (fun p => p.rkey == rkey && p.author == user)).getD
    { id := 0, author := 0, rkey := "", cid := "", replyTo := 0,
      deleted := false, missing := false, upCount := 0 }
  if maybe.id ≠ 0 then
    { db with
      posts := db.posts.map (fun p =>
        if p.rkey == rkey && p.author == user then
          { id := p.id, author := user, rkey := rkey, cid := rcid, replyTo := replyTo,
            deleted := false, missing := false, upCount := 0 }
        else p) }
  else
    { db with
      posts := db.posts ++
        [⟨db.nextPostId, user, rkey, rcid, replyTo, false, false, 0⟩]
      nextPostId := db.nextPostId + 1 }

/-- One repo operation inside a repo event (`repomgr.RepoOp`), as consumed by
`HandleRepoEvent`: kind, collection, rkey and record cid. -/
structure RepoOp where
  kind : String
  collection : String
  rkey : String
  recCid : Option String
deriving Repr, DecidableEq

/-- A repo event from the repository manager (`repomgr.RepoEvent`).  The CAR
slice is kept as a byte list; only its length matters to the truncation
logic. -/
structure RepoEvent where
  user : Nat
  oldRoot : Option String
  newRoot : String
  rev : String
  since : Option String
  ops : List RepoOp
  repoSlice : List Nat
deriving Repr, DecidableEq

/-- An outbound firehose op (`comatproto.SyncSubscribeRepos_RepoOp`). -/
structure OutRepoOp where
  path : String
  action : String
  cid : Option String
deriving Repr, DecidableEq

/-- The outbound commit envelope (`comatproto.SyncSubscribeRepos_Commit`);
the wall-clock `Time` field is omitted from the embedding. -/
structure RepoCommitEvt where
  repo : String
  prev : Option String
  blocks : Option (List Nat)
  rev : String
  since : Option String
  commit : String
  ops : Option (List OutRepoOp)
  tooBig : Bool
deriving Repr, DecidableEq

/-- `const MaxEventSliceLength = 1000000`. -/
def MaxEventSliceLength : Nat := 1000000

/-- `const MaxOpsSliceLength = 200`. -/
def MaxOpsSliceLength : Nat := 200

/-- The per-op conversion in `HandleRepoEvent`: path is
`op.Collection + "/" + op.Rkey`, action is the op kind, cid is passed along. -/
def opToOutOp (op : RepoOp) : OutRepoOp :=
  { path := op.collection ++ "/" ++ op.rkey, action := op.kind, cid := op.recCid }

/-- `HandleRepoEvent`'s construction of the outbound envelope (the per-op
`handleRepoOp` indexing side effects only log their errors and do not affect
the envelope): convert every op, then null out blocks and ops and set
`TooBig` when the slice exceeds `MaxEventSliceLength` bytes or there are more
than `MaxOpsSliceLength` ops. -/
def HandleRepoEvent (did : String) (evt : RepoEvent) : RepoCommitEvt :=
  let outops := evt.ops.map opToOutOp
  if MaxEventSliceLength < evt.repoSlice.length ∨ MaxOpsSliceLength < outops.length then
    { repo := did, prev := evt.oldRoot, blocks := none, rev := evt.rev,
      since := evt.since, commit := evt.newRoot, ops := none, tooBig := true }
  else
    { repo := did, prev := evt.oldRoot, blocks := some evt.repoSlice, rev := evt.rev,
      since := evt.since, commit := evt.newRoot, ops := some outops, tooBig := false }

/-- A buffered firehose event on a crawl job (`catchupJob`/`crawlWork`
buffer entry): the commit's `since` pointer, its new `rev`, and its firehose
sequence number (used here to identify the event in replay traces). -/
structure BufferedEvt where
  since : Option String
  rev : String
  seq : Nat
deriving Repr, DecidableEq

/-- Outcome of a `repomgr.ImportNewRepo` call: success, failure because a
referenced block is missing (`ipld.IsNotFound`), or any other failure. -/
inductive ImportRes where
  | ok
  | missingBlock
  | otherErr
deriving Repr, DecidableEq, BEq

/-- Oracle for the collaborators `FetchAndIndexRepo` calls:
`handleEvt` is the success of `repomgr.HandleExternalUserEvent` on a buffered
event, `fetchOk since` the success of the rate-limited `sync.getRepo` fetch
with that `since` value, `importFirst` the result of `ImportNewRepo` on the
first fetched repo and `importRetry` its result on the `since = ""` retry. -/
structure RepoSyncOracle where
  handleEvt : BufferedEvt → Bool
  fetchOk : String → Bool
  importFirst : ImportRes
  importRetry : ImportRes

/-- Externally visible actions of the fetch pipeline: replaying a buffered
event through `HandleExternalUserEvent`, a `sync.getRepo` call with a given
`since`, and an `ImportNewRepo` attempt (`none` = nil rev, the full-snapshot
re-import). -/
inductive FetchAction where
  | replay (seq : Nat)
  | getRepo (since : String)
  | importRepo (since : Option String)
deriving Repr, DecidableEq

/-- A crawl job (`crawlWork`): the initial-scrape flag and the catch-up
buffer of events that arrived while the job was pending. -/
structure CrawlWork where
  initScrape : Bool
  catchup : List BufferedEvt

/-- The catch-up loop of `FetchAndIndexRepo`: replay buffered events in order
through `HandleExternalUserEvent`, stopping at the first failure (`resync`). -/
def replayBuffer (o : RepoSyncOracle) : List BufferedEvt → List FetchAction × Bool
  | [] => ([], true)
  | e :: rest =>
    if o.handleEvt e then
      let r := replayBuffer o rest
      (FetchAction.replay e.seq :: r.1, r.2)
    else ([FetchAction.replay e.seq], false)

/-- Steps 4-5 of `FetchAndIndexRepo`: fetch `sync.getRepo(did, since = rev)`
and import it; if the import fails with a missing block, fetch once more with
`since = ""` and import that; any other import failure, and any failure of
the retried import, is returned without further attempts. -/
def fetchAndImport (o : RepoSyncOracle) (rev : String) : List FetchAction × Bool :=
  if o.fetchOk rev = false then ([FetchAction.getRepo rev], false)
  else
    match o.importFirst with
    | ImportRes.ok =>
      ([FetchAction.getRepo rev, FetchAction.importRepo (some rev)], true)
    | ImportRes.otherErr =>
      ([FetchAction.getRepo rev, FetchAction.importRepo (some rev)], false)
    | ImportRes.missingBlock =>
      if o.fetchOk "" = false then
        ([FetchAction.getRepo rev, FetchAction.importRepo (some rev),
          FetchAction.getRepo ""], false)
      else
        match o.importRetry with
        | ImportRes.ok =>
          ([FetchAction.getRepo rev, FetchAction.importRepo (some rev),
            FetchAction.getRepo "", FetchAction.importRepo none], true)
        | _ =>
          ([FetchAction.getRepo rev, FetchAction.importRepo (some rev),
            FetchAction.getRepo "", FetchAction.importRepo none], false)

/-- `FetchAndIndexRepo` (the PDS row is assumed found and `rev` is the stored
revision from `GetRepoRev`, empty if never imported): when the job is not an
initial scrape and the buffer is non-empty, examine the first buffered event;
if its `since` is absent or equals `rev`, replay the buffer and finish on
success, falling through to the fetch path on a replay failure; otherwise go
straight to the fetch path.  Returns the action trace and overall success. -/
def FetchAndIndexRepo (o : RepoSyncOracle) (rev : String) (job : CrawlWork) :
    List FetchAction × Bool :=
  if job.initScrape = false then
    match job.catchup with
    | [] => fetchAndImport o rev
    | first :: _ =>
      if first.since = none ∨ first.since = some rev then
        let r := replayBuffer o job.catchup
        if r.2 = true then r
        else (r.1 ++ (fetchAndImport o rev).1, (fetchAndImport o rev).2)
      else fetchAndImport o rev
  else fetchAndImport o rev

/-- Recognizer for `sync.getRepo` actions. -/
def isGetRepo : FetchAction → Bool
  | FetchAction.getRepo _ => true
  | _ => false

/-- Recognizer for `ImportNewRepo` attempts. -/
def isImport : FetchAction → Bool
  | FetchAction.importRepo _ => true
  | _ => false

/-- Number of `sync.getRepo` calls in a trace. -/
def countGetRepo (acts : List FetchAction) : Nat := acts.countP isGetRepo

/-- Number of `ImportNewRepo` attempts in a trace. -/
def countImports (acts : List FetchAction) : Nat := acts.countP isImport

instance {ε : Type u} {α : Type v} [DecidableEq ε] [DecidableEq α] :
    DecidableEq (Except ε α) := fun x y =>
  match x, y with
  | Except.ok a, Except.ok b => decidable_of_iff (a = b) (by simp)
  | Except.error e, Except.error f => decidable_of_iff (e = f) (by simp)
  | Except.ok _, Except.error _ => isFalse (fun hh => Except.noConfusion hh)
  | Except.error _, Except.ok _ => isFalse (fun hh => Except.noConfusion hh)

/-- Base-10 digit-run parser underlying `parseBase10`. -/
def parseDigits (ds : List Char) : Option Nat :=
  if ds = [] then none
  else if ds.all (fun c => c.isDigit) then
    some (ds.foldl (fun acc c => acc * 10 + (c.toNat - 48)) 0)
  else none

/-- `strconv.ParseInt(s, 10, 64)` on the characters of `s`: an optional sign
followed by a non-empty run of digits, anything else an error (the int64
range check is not modelled). -/
def parseBase10 (s : String) : Option Int :=
  match s.data with
  | [] => none
  | '-' :: ds => (parseDigits ds).map (fun n => -(n : Int))
  | '+' :: ds => (parseDigits ds).map (fun n => (n : Int))
  | ds => (parseDigits ds).map (fun n => (n : Int))

/-- `strings.HasPrefix` on the characters of the two strings. -/
def hasPrefixB (s pre : String) : Bool := pre.data.isPrefixOf s.data

/-- Row of the BGS user table as the Sync handlers see it. -/
structure BgsUser where
  id : Nat
  did : String
  tombstoned : Bool
  takenDown : Bool
deriving Repr, DecidableEq

/-- An error value returned by a handler: either an explicit
`echo.HTTPError` carrying a status code, or a plain Go error
(`fmt.Errorf`). -/
inductive HErr where
  | http (code : Nat) (msg : String)
  | plain (msg : String)
deriving Repr, DecidableEq

/-- HTTP status a handler error surfaces with: an `echo.HTTPError` keeps its
code; echo maps any other error value to 500 Internal Server Error (the
handler wrappers in the repository return the error to echo unchanged). -/
def httpStatus : HErr → Nat
  | HErr.http code _ => code
  | HErr.plain _ => 500

/-- The `WHERE id > ? AND NOT tombstoned AND NOT taken_down ... ORDER BY id
... LIMIT ?` query of `handleComAtprotoSyncListRepos`; `users` stands for the
table in its `ORDER BY id` order. -/
def listReposSelect (users : List BgsUser) (c : Int) (limit : Nat) : List BgsUser :=
  (users.filter (fun u => decide (c < (u.id : Int)) && !u.tombstoned && !u.takenDown)).take limit

/-- `handleComAtprotoSyncListRepos`: parse the cursor (`0` when empty,
`strconv.ParseInt` otherwise — a non-integer cursor is a plain
`invalid cursor` error), run the page query, and on a non-empty page return
the `(did, head)` pairs together with the cursor
`strconv.FormatInt(c + int64(len(users)), 10)`.  `roots` stands for
`repoman.GetRepoRoot` (assumed to succeed). -/
def handleComAtprotoSyncListRepos (roots : Nat → String) (users : List BgsUser)
    (cursor : String) (limit : Nat) :
    Except HErr (List (String × String) × Option String) :=
  match (if cursor = "" then some (0 : Int) else parseBase10 cursor) with
  | none => Except.error (HErr.plain "invalid cursor")
  | some c =>
    let sel := listReposSelect users c limit
    if sel = [] then Except.ok ([], none)
    else
      Except.ok (sel.map (fun u => (u.did, roots u.id)),
        some (toString (c + (sel.length : Int))))

/-- Oracles for the collaborators `handleComAtprotoSyncRequestCrawl` calls:
`util.NormalizeHostname` success, the banned-domain check, the
`server.describeServer` probe and `slurper.SubscribeToPds`. -/
structure CrawlEnv where
  normalizeOk : String → Bool
  banned : String → Bool
  describeOk : String → Bool
  subscribeOk : Bool

/-- `handleComAtprotoSyncRequestCrawl`: empty hostname is a plain error; a
hostname starting with a protocol scheme is an explicit `echo.HTTPError`
with code 400; a banned domain and a failed `describeServer` probe are
`echo.HTTPError`s with code 401; other collaborator failures are plain
errors.  Returns `none` on success. -/
def handleComAtprotoSyncRequestCrawl (env : CrawlEnv) (hostname : String) :
    Option HErr :=
  if hostname = "" then some (HErr.plain "must pass valid hostname")
  else if hasPrefixB hostname "https://" || hasPrefixB hostname "http://" then
    some (HErr.http 400 "must pass domain without protocol scheme")
  else if env.normalizeOk hostname = false then
    some (HErr.plain "failed to normalize hostname")
  else if env.banned hostname then some (HErr.http 401 "domain is banned")
  else if env.describeOk hostname = false then
    some (HErr.http 401 "given host failed to respond to ping")
  else if env.subscribeOk = false then some (HErr.plain "failed to subscribe to pds")
  else none

/-- `handleComAtprotoSyncGetRecord` up to the repo-manager read: unknown DID
is an `echo.HTTPError` 404; tombstoned and taken-down accounts are plain
errors; a non-empty `commit` parameter that `cid.Decode` rejects (`cidOk`
models the decoder) is a plain `failed to decode commit cid` error; a failed
`repoman.GetRecord` is a plain error. -/
def handleComAtprotoSyncGetRecord (users : List BgsUser) (cidOk : String → Bool)
    (getRecordOk : Bool) (collection commit did rkey : String) :
    Except HErr Unit :=
  match users.find? (fun u => u.did == did) with
  | none => Except.error (HErr.http 404 "user not found")
  | some u =>
    if u.tombstoned then Except.error (HErr.plain "account was deleted")
    else if u.takenDown then Except.error (HErr.plain "account was taken down")
    else if commit ≠ "" ∧ cidOk commit = false then
      Except.error (HErr.plain "failed to decode commit cid")
    else if getRecordOk = false then Except.error (HErr.plain "failed to get record")
    else Except.ok ()

/-! ## Helper lemmas -/

/-- Removing one row (by its primary key) from a table with distinct keys
removes exactly that row from any count. -/
theorem countP_of_filter_ne_id (q : VoteRecord → Bool) :
    ∀ (l : List VoteRecord) (v0 : VoteRecord),
      (l.map VoteRecord.id).Nodup → v0 ∈ l →
      l.countP q = (l.filter (fun v => !(v.id == v0.id))).countP q +
        (if q v0 then 1 else 0)
  | [], v0, _, hmem => absurd hmem (List.not_mem_nil v0)
  | a :: l, v0, hnd, hmem => by
    rw [List.map_cons, List.nodup_cons] at hnd
    obtain ⟨ha, hl⟩ := hnd
    rw [List.mem_cons] at hmem
    rcases hmem with rfl | hmem
    · have hkeep : l.filter (fun v => !(v.id == v0.id)) = l := by
        apply List.filter_eq_self.mpr
        intro b hb
        have hbne : b.id ≠ v0.id := fun h => ha (h ▸ List.mem_map_of_mem VoteRecord.id hb)
        simp [hbne]
      rw [List.filter_cons, if_neg (by simp), hkeep, List.countP_cons]
    · have hane : a.id ≠ v0.id := fun h => ha (h ▸ List.mem_map_of_mem VoteRecord.id hmem)
      rw [List.filter_cons, if_pos (by simp [hane]), List.countP_cons, List.countP_cons]
      have hrec := countP_of_filter_ne_id q l v0 hl hmem
      cases hqa : q a <;> cases hqv : q v0 <;>
        simp only [hqa, hqv, if_true, if_false, Bool.false_eq_true] at hrec ⊢ <;> omega

/-- If the vote table changes by `d` rows pointing at post `pid` (and is
unchanged elsewhere), then bumping `up_count` of `pid` by `d` preserves the
per-post count invariant. -/
theorem upCount_bump_inv (votes votes' : List VoteRecord) (posts : List FeedPost)
    (pid : Nat) (d : Int)
    (hcnt : ∀ p ∈ posts, p.upCount = (voteCount votes p.id : Int))
    (heq : ∀ k : Nat, (voteCount votes' k : Int)
        = (voteCount votes k : Int) + (if k = pid then d else 0)) :
    ∀ p ∈ bumpUpCount posts pid d, p.upCount = (voteCount votes' p.id : Int) := by
  intro p hp
  simp only [bumpUpCount] at hp
  obtain ⟨p0, hp0, hfp⟩ := List.mem_map.mp hp
  subst hfp
  have h1 := hcnt p0 hp0
  have h2 := heq p0.id
  cases hid : (p0.id == pid)
  · rw [if_neg (by simpa using hid)] at h2
    simp only [hid, Bool.false_eq_true, if_false]
    omega
  · rw [if_pos (by simpa using hid)] at h2
    simp only [hid, if_true]
    show p0.upCount + d = (voteCount votes' p0.id : Int)
    omega

/-- A like create preserves the like-index invariants. -/
theorem likeWF_create (db : IndexDB) (voter : Nat) (rkey : String) (postId : Nat)
    (cid : String) (hwf : likeWF db) :
    likeWF (handleRecordCreateFeedLike db voter rkey postId cid) := by
  obtain ⟨hnd, hlt, hcnt⟩ := hwf
  unfold likeWF handleRecordCreateFeedLike
  refine ⟨?_, ?_, ?_⟩
  · simp only [List.map_append, List.map_cons, List.map_nil]
    rw [List.nodup_append]
    refine ⟨hnd, List.nodup_singleton _, ?_⟩
    intro x hx hx'
    rw [List.mem_singleton] at hx'
    subst hx'
    obtain ⟨v, hv, hvid⟩ := List.mem_map.mp hx
    exact absurd (hvid ▸ hlt v hv) (lt_irrefl _)
  · intro v hv
    rw [List.mem_append] at hv
    rcases hv with hv | hv
    · exact Nat.lt_succ_of_lt (hlt v hv)
    · rw [List.mem_singleton] at hv
      subst hv
      exact Nat.lt_succ_self _
  · apply upCount_bump_inv db.votes _ db.posts postId 1 hcnt
    intro k
    unfold voteCount
    rw [List.countP_append]
    by_cases hk : k = postId
    · subst hk
      simp [List.countP_cons]
    · have : ((⟨db.nextVoteId, voter, rkey, postId, cid⟩ : VoteRecord).post == k) = false := by
        simp only [beq_eq_false_iff_ne]
        exact fun h => hk h.symm
      simp [List.countP_cons, this, hk]

/-- A like delete matching an existing vote row preserves the like-index
invariants. -/
theorem likeWF_delete (db : IndexDB) (voter : Nat) (rkey : String)
    (hwf : likeWF db)
    (hex : db.votes.any (fun v => v.voter == voter && v.rkey == rkey) = true) :
    likeWF (handleRecordDeleteFeedLike db voter rkey) := by
  obtain ⟨hnd, hlt, hcnt⟩ := hwf
  obtain ⟨v1, hv1, hp1⟩ := List.any_eq_true.mp hex
  obtain ⟨v0, hf⟩ : ∃ v0,
      db.votes.find? (fun v => v.voter == voter && v.rkey == rkey) = some v0 := by
    cases hf : db.votes.find? (fun v => v.voter == voter && v.rkey == rkey) with
    | none => exact absurd hp1 (by simpa using List.find?_eq_none.mp hf v1 hv1)
    | some v0 => exact ⟨v0, rfl⟩
  have hv0mem : v0 ∈ db.votes := List.mem_of_find?_eq_some hf
  have hdb : handleRecordDeleteFeedLike db voter rkey =
      { db with votes := db.votes.filter (fun v => !(v.id == v0.id)),
                posts := bumpUpCount db.posts v0.post (-1) } := by
    unfold handleRecordDeleteFeedLike
    rw [hf]
    rfl
  rw [hdb]
  refine ⟨?_, ?_, ?_⟩
  · exact hnd.sublist ((List.filter_sublist db.votes).map VoteRecord.id)
  · intro v hv
    exact hlt v (List.mem_of_mem_filter hv)
  · show ∀ p ∈ bumpUpCount db.posts v0.post (-1),
        p.upCount = (voteCount (db.votes.filter (fun v => !(v.id == v0.id))) p.id : Int)
    apply upCount_bump_inv db.votes _ db.posts v0.post (-1) hcnt
    intro k
    have key := countP_of_filter_ne_id (fun v => v.post == k) db.votes v0 hnd hv0mem
    unfold voteCount
    by_cases hk : k = v0.post
    · subst hk
      rw [if_pos rfl]
      rw [if_pos (by simp)] at key
      omega
    · rw [if_neg hk]
      have : ((fun v : VoteRecord => v.post == k) v0) = false := by
        simp only [beq_eq_false_iff_ne]
        exact fun h => hk h.symm
      rw [this, if_neg (by simp)] at key
      omega

/-- Valid like sequences preserve all like-index invariants. -/
theorem likeWF_applyLikeOps : ∀ (ops : List LikeOp) (db : IndexDB),
    likeWF db → validLikeOps db ops = true → likeWF (applyLikeOps db ops)
  | [], _, hwf, _ => hwf
  | LikeOp.create voter rkey postId cid :: rest, db, hwf, hv => by
    simp only [validLikeOps, Bool.and_eq_true] at hv
    have step := likeWF_create db voter rkey postId cid hwf
    simpa only [applyLikeOps, applyLikeOp] using
      likeWF_applyLikeOps rest (handleRecordCreateFeedLike db voter rkey postId cid) step hv.2
  | LikeOp.delete voter rkey :: rest, db, hwf, hv => by
    simp only [validLikeOps, Bool.and_eq_true] at hv
    have step := likeWF_delete db voter rkey hwf hv.1
    simpa only [applyLikeOps, applyLikeOp] using
      likeWF_applyLikeOps rest (handleRecordDeleteFeedLike db voter rkey) step hv.2

/-! ## Claim theorems -/

/-- C1: starting from a well-formed store, after any sequence of like-create
and like-delete operations processed by the indexer — each create with a
fresh `(voter, rkey)` pair, each delete matching a prior create — every
post's stored `up_count` equals the number of `VoteRecord` rows whose `post`
field is that post. -/
theorem upcount_conservation (db : IndexDB) (ops : List LikeOp)
    (hwf : likeWF db) (hv : validLikeOps db ops = true) :
    ∀ p ∈ (applyLikeOps db ops).posts,
      p.upCount = (voteCount (applyLikeOps db ops).votes p.id : Int) :=
  (likeWF_applyLikeOps ops db hwf hv).2.2

/-- A one-post store with no votes yet. -/
def likeDb0 : IndexDB :=
  { actors := [], posts := [⟨1, 2, "p1", "cidP", 0, false, false, 0⟩], votes := [],
    reposts := [], follows := [], nextVoteId := 1, nextPostId := 2 }

/-- Two likes on post 1 by voters 7 and 8, then voter 7 unlikes. -/
def likeOps0 : List LikeOp :=
  [LikeOp.create 7 "a" 1 "c1", LikeOp.create 8 "b" 1 "c2", LikeOp.delete 7 "a"]

/-- Witness for C1 at a concrete store and operation sequence. -/
theorem upcount_conservation_witness :
    likeWF likeDb0 ∧ validLikeOps likeDb0 likeOps0 = true ∧
      ∀ p ∈ (applyLikeOps likeDb0 likeOps0).posts,
        p.upCount = (voteCount (applyLikeOps likeDb0 likeOps0).votes p.id : Int) :=
  ⟨by decide, by decide, upcount_conservation likeDb0 likeOps0 (by decide) (by decide)⟩

/-- C5 counterexample: with the `VoteRecord` insert succeeding and the
`up_count` increment failing, the like create reports failure yet the
inserted `VoteRecord` row persists while no `up_count` changed — the two
writes are not atomic, refuting the claim that a failed step leaves no row
behind. -/
theorem like_create_not_atomic :
    (handleRecordCreateFeedLikeFallible true false likeDb0 7 "lk" 1 "cidV").2 = false ∧
    (handleRecordCreateFeedLikeFallible true false likeDb0 7 "lk" 1 "cidV").1.votes
      = [⟨1, 7, "lk", 1, "cidV"⟩] ∧
    (handleRecordCreateFeedLikeFallible true false likeDb0 7 "lk" 1 "cidV").1.posts
      = likeDb0.posts :=
  ⟨rfl, rfl, rfl⟩

/-- C5 (amended): the like delete runs inside one transaction — if either
step fails nothing persists, and on success the full delete state persists —
whereas the like create issues the `VoteRecord` insert and the `up_count`
increment as two separate database calls, so a failed increment leaves the
inserted vote row persisted with no `up_count` change. -/
theorem like_txn_amended (db : IndexDB) (voter : Nat) (rkey : String)
    (postId : Nat) (cid : String) :
    (handleRecordDeleteFeedLikeFallible false true db voter rkey).1 = db ∧
    (handleRecordDeleteFeedLikeFallible true false db voter rkey).1 = db ∧
    (handleRecordDeleteFeedLikeFallible false false db voter rkey).1 = db ∧
    handleRecordDeleteFeedLikeFallible true true db voter rkey
      = (handleRecordDeleteFeedLike db voter rkey, true) ∧
    (handleRecordCreateFeedLikeFallible true false db voter rkey postId cid).1.votes
      = db.votes ++ [⟨db.nextVoteId, voter, rkey, postId, cid⟩] ∧
    (handleRecordCreateFeedLikeFallible true false db voter rkey postId cid).1.posts
      = db.posts ∧
    (handleRecordCreateFeedLikeFallible true false db voter rkey postId cid).2 = false ∧
    handleRecordCreateFeedLikeFallible true true db voter rkey postId cid
      = (handleRecordCreateFeedLike db voter rkey postId cid, true) :=
  ⟨rfl, rfl, rfl, rfl, rfl, rfl, rfl, rfl⟩

/-- C6: the delete dispatch has no case for collection `app.bsky.feed.like` —
such a delete falls through to the `unrecognized record type` error — while
the like-delete transaction is reachable only under the legacy collection
name `app.bsky.feed.vote`. -/
theorem feed_like_delete_unrecognized (db : IndexDB) (user : Nat) (rkey : String) :
    handleRecordDelete db user "app.bsky.feed.like" rkey
      = Except.error "unrecognized record type (delete): app.bsky.feed.like" ∧
    handleRecordDelete db user "app.bsky.feed.vote" rkey
      = Except.ok (handleRecordDeleteFeedLike db user rkey) := by
  constructor
  · simp [handleRecordDelete]
  · simp [handleRecordDelete]

/-- C9: initializing an actor repository also inserts a `FollowRecord` whose
follower and target are both the new actor's UID — every initialized actor
implicitly follows themselves. -/
theorem init_actor_self_follow (db : IndexDB) (user : Nat)
    (did handle displayName : String) (pds : Nat) :
    (handleInitActor db user did handle displayName pds).follows
      = db.follows ++ [{ follower := user, target := user, rkey := "", cid := "" }] :=
  rfl

/-- Replaying a buffer whose events all succeed replays every event in order
and reports success. -/
theorem replayBuffer_all (o : RepoSyncOracle) (l : List BufferedEvt)
    (h : ∀ e ∈ l, o.handleEvt e = true) :
    replayBuffer o l = (l.map (fun e => FetchAction.replay e.seq), true) := by
  induction l with
  | nil => rfl
  | cons e rest ih =>
    have he : o.handleEvt e = true := h e (List.mem_cons_self e rest)
    have hrest := ih (fun x hx => h x (List.mem_cons_of_mem e hx))
    simp [replayBuffer, he, hrest]

/-- The replay loop succeeds exactly when every buffered event succeeds. -/
theorem replayBuffer_ok_iff (o : RepoSyncOracle) (l : List BufferedEvt) :
    (replayBuffer o l).2 = true ↔ ∀ e ∈ l, o.handleEvt e = true := by
  induction l with
  | nil => simp [replayBuffer]
  | cons e rest ih =>
    cases he : o.handleEvt e
    · simp [replayBuffer, he]
    · simp [replayBuffer, he, ih]

/-- Replay actions contain no fetches and no imports. -/
theorem replayBuffer_counts (o : RepoSyncOracle) (l : List BufferedEvt) :
    countGetRepo (replayBuffer o l).1 = 0 ∧ countImports (replayBuffer o l).1 = 0 := by
  induction l with
  | nil => exact ⟨rfl, rfl⟩
  | cons e rest ih =>
    cases he : o.handleEvt e
    · simp [replayBuffer, he, countGetRepo, countImports, List.countP_cons, isGetRepo, isImport]
    · simp only [replayBuffer, he, if_true]
      unfold countGetRepo countImports at ih ⊢
      simp [List.countP_cons, isGetRepo, isImport, ih.1, ih.2]

/-- Number of `sync.getRepo` calls the fetch-and-import pipeline makes: two
when the first fetch succeeds and its import fails with a missing block
(the `since = ""` retry), one in every other case. -/
theorem countGetRepo_fetchAndImport (o : RepoSyncOracle) (rev : String) :
    countGetRepo (fetchAndImport o rev).1 =
      if o.fetchOk rev = true ∧ o.importFirst = ImportRes.missingBlock then 2 else 1 := by
  unfold fetchAndImport
  cases h1 : o.fetchOk rev
  · simp [h1, countGetRepo, List.countP_cons, isGetRepo]
  · cases h2 : o.importFirst <;> cases h3 : o.fetchOk "" <;> cases h4 : o.importRetry <;>
      simp [h1, h2, h3, h4, countGetRepo, List.countP_cons, isGetRepo]

/-- The fetch-and-import pipeline never makes more than two fetches or more
than two import attempts. -/
theorem fetchAndImport_counts_le (o : RepoSyncOracle) (rev : String) :
    countGetRepo (fetchAndImport o rev).1 ≤ 2 ∧
      countImports (fetchAndImport o rev).1 ≤ 2 := by
  unfold fetchAndImport
  cases h1 : o.fetchOk rev
  · simp [h1, countGetRepo, countImports, List.countP_cons, isGetRepo, isImport]
  · cases h2 : o.importFirst <;> cases h3 : o.fetchOk "" <;> cases h4 : o.importRetry <;>
      simp [h1, h2, h3, h4, countGetRepo, countImports, List.countP_cons, isGetRepo, isImport]

/-- `FetchAndIndexRepo` either goes straight to the fetch pipeline, finishes
after catch-up replay only, or replays a prefix and then runs the fetch
pipeline. -/
theorem FetchAndIndexRepo_cases (o : RepoSyncOracle) (rev : String) (job : CrawlWork) :
    FetchAndIndexRepo o rev job = fetchAndImport o rev ∨
    (countGetRepo (FetchAndIndexRepo o rev job).1 = 0 ∧
      countImports (FetchAndIndexRepo o rev job).1 = 0) ∨
    (∃ l, FetchAndIndexRepo o rev job
        = (l ++ (fetchAndImport o rev).1, (fetchAndImport o rev).2) ∧
      countGetRepo l = 0 ∧ countImports l = 0) := by
  unfold FetchAndIndexRepo
  cases hi : job.initScrape
  · rw [if_pos rfl]
    cases hc : job.catchup with
    | nil => exact Or.inl rfl
    | cons first rest =>
      dsimp only
      by_cases hs : first.since = none ∨ first.since = some rev
      · rw [if_pos hs]
        by_cases hr : (replayBuffer o (first :: rest)).2 = true
        · refine Or.inr (Or.inl ?_)
          simp only [hr, if_true]
          exact ⟨(replayBuffer_counts o (first :: rest)).1,
            (replayBuffer_counts o (first :: rest)).2⟩
        · refine Or.inr (Or.inr ⟨(replayBuffer o (first :: rest)).1, ?_, ?_, ?_⟩)
          · simp only [hr, if_false, Bool.false_eq_true]
          · exact (replayBuffer_counts o (first :: rest)).1
          · exact (replayBuffer_counts o (first :: rest)).2
      · rw [if_neg hs]
        exact Or.inl rfl
  · rw [if_neg (by simp)]
    exact Or.inl rfl

/-- C7: over all oracles, revisions and jobs, `FetchAndIndexRepo` never makes
a third fetch or import attempt; and when the first fetch succeeds, the
pipeline trace is one fetch and one import, extended — exactly when that
first import fails with a missing block — by one more fetch with
`since = ""` followed (if that fetch succeeds) by one re-import; the run
succeeds exactly when an import succeeded. -/
theorem import_missing_block_retry (o : RepoSyncOracle) (rev : String) (job : CrawlWork) :
    countGetRepo (FetchAndIndexRepo o rev job).1 ≤ 2 ∧
    countImports (FetchAndIndexRepo o rev job).1 ≤ 2 ∧
    (fetchAndImport o rev).1 =
      FetchAction.getRepo rev ::
        (if o.fetchOk rev = true then
          FetchAction.importRepo (some rev) ::
            (if o.importFirst = ImportRes.missingBlock then
              FetchAction.getRepo "" ::
                (if o.fetchOk "" = true then [FetchAction.importRepo none] else [])
             else [])
         else []) ∧
    ((fetchAndImport o rev).2 = true ↔
      (o.fetchOk rev = true ∧
        (o.importFirst = ImportRes.ok ∨
          (o.importFirst = ImportRes.missingBlock ∧ o.fetchOk "" = true ∧
            o.importRetry = ImportRes.ok)))) := by
  refine ⟨?_, ?_, ?_, ?_⟩
  · rcases FetchAndIndexRepo_cases o rev job with h | ⟨hg, _⟩ | ⟨l, h, hg, _⟩
    · rw [h]; exact (fetchAndImport_counts_le o rev).1
    · omega
    · rw [h]
      show countGetRepo (l ++ (fetchAndImport o rev).1) ≤ 2
      unfold countGetRepo at hg ⊢
      rw [List.countP_append, hg]
      simpa using (fetchAndImport_counts_le o rev).1
  · rcases FetchAndIndexRepo_cases o rev job with h | ⟨_, hg⟩ | ⟨l, h, _, hg⟩
    · rw [h]; exact (fetchAndImport_counts_le o rev).2
    · omega
    · rw [h]
      show countImports (l ++ (fetchAndImport o rev).1) ≤ 2
      unfold countImports at hg ⊢
      rw [List.countP_append, hg]
      simpa using (fetchAndImport_counts_le o rev).2
  · unfold fetchAndImport
    cases h1 : o.fetchOk rev
    · simp [h1]
    · cases h2 : o.importFirst <;> cases h3 : o.fetchOk "" <;> cases h4 : o.importRetry <;>
        simp [h1, h2, h3, h4]
  · unfold fetchAndImport
    cases h1 : o.fetchOk rev
    · simp [h1]
    · cases h2 : o.importFirst <;> cases h3 : o.fetchOk "" <;> cases h4 : o.importRetry <;>
        simp [h1, h2, h3, h4]

/-- C3 (amended): for a non-initial-scrape job with a non-empty buffer, if the
first buffered event's `since` is absent or equals the stored `rev` and every
replay succeeds, the buffered events are replayed in order and the job
finishes with no `sync.getRepo` call; otherwise the fetch path runs, making
exactly one `sync.getRepo` call unless that fetch succeeds and its import
fails with a missing block, in which case exactly two. -/
theorem catchup_linkage (o : RepoSyncOracle) (rev : String) (job : CrawlWork)
    (first : BufferedEvt) (rest : List BufferedEvt)
    (hinit : job.initScrape = false) (hcat : job.catchup = first :: rest) :
    ((first.since = none ∨ first.since = some rev) →
      (∀ e ∈ job.catchup, o.handleEvt e = true) →
      FetchAndIndexRepo o rev job
        = (job.catchup.map (fun e => FetchAction.replay e.seq), true)) ∧
    countGetRepo (FetchAndIndexRepo o rev job).1 =
      (if (first.since = none ∨ first.since = some rev) ∧
          (∀ e ∈ job.catchup, o.handleEvt e = true) then 0
       else if o.fetchOk rev = true ∧ o.importFirst = ImportRes.missingBlock then 2
       else 1) := by
  have hred : FetchAndIndexRepo o rev job =
      (if first.since = none ∨ first.since = some rev then
        if (replayBuffer o (first :: rest)).2 = true then replayBuffer o (first :: rest)
        else ((replayBuffer o (first :: rest)).1 ++ (fetchAndImport o rev).1,
          (fetchAndImport o rev).2)
       else fetchAndImport o rev) := by
    unfold FetchAndIndexRepo
    rw [hinit, hcat]
    rfl
  constructor
  · intro hs hall
    rw [hcat] at hall
    rw [hred, if_pos hs, hcat]
    rw [replayBuffer_all o (first :: rest) hall]
    rfl
  · rw [hcat]
    by_cases hs : first.since = none ∨ first.since = some rev
    · by_cases hall : ∀ e ∈ (first :: rest), o.handleEvt e = true
      · rw [if_pos ⟨hs, hall⟩, hred, if_pos hs,
          if_pos ((replayBuffer_ok_iff o (first :: rest)).mpr hall)]
        exact (replayBuffer_counts o (first :: rest)).1
      · rw [if_neg (fun h => hall h.2), hred, if_pos hs,
          if_neg (fun h => hall ((replayBuffer_ok_iff o (first :: rest)).mp h))]
        show countGetRepo ((replayBuffer o (first :: rest)).1 ++ (fetchAndImport o rev).1)
          = _
        unfold countGetRepo
        rw [List.countP_append]
        have h0 := (replayBuffer_counts o (first :: rest)).1
        unfold countGetRepo at h0
        rw [h0, Nat.zero_add]
        exact countGetRepo_fetchAndImport o rev
    · rw [if_neg (fun h => hs h.1), hred, if_neg hs]
      exact countGetRepo_fetchAndImport o rev

/-- A buffered event whose `since` does not match the stored rev. -/
def resyncEvt : BufferedEvt := ⟨some "rX", "r1", 1⟩

/-- A non-initial-scrape job holding only `resyncEvt`. -/
def resyncJob : CrawlWork := ⟨false, [resyncEvt]⟩

/-- Oracle where every replay and fetch succeeds and the first import fails
with a missing block. -/
def resyncOracle : RepoSyncOracle :=
  ⟨fun _ => true, fun _ => true, ImportRes.missingBlock, ImportRes.ok⟩

/-- C3 counterexample: with the first buffered event's `since` different from
the stored rev and the first import failing with a missing block, the job
makes two `sync.getRepo` calls, not exactly one as the claim states. -/
theorem catchup_two_fetches_counterexample :
    countGetRepo (FetchAndIndexRepo resyncOracle "r0" resyncJob).1 = 2 := by decide

/-- A buffered event chained onto rev `r0`. -/
def chainEvt1 : BufferedEvt := ⟨some "r0", "r1", 1⟩

/-- A buffered event chained onto `chainEvt1`. -/
def chainEvt2 : BufferedEvt := ⟨some "r1", "r2", 2⟩

/-- A non-initial-scrape job with the chained two-event buffer. -/
def chainJob : CrawlWork := ⟨false, [chainEvt1, chainEvt2]⟩

/-- Witness for the amended C3: the chained buffer is replayed in order with
no fetch. -/
theorem catchup_linkage_witness :
    FetchAndIndexRepo resyncOracle "r0" chainJob
      = ([FetchAction.replay 1, FetchAction.replay 2], true) :=
  (catchup_linkage resyncOracle "r0" chainJob chainEvt1 [chainEvt2] rfl rfl).1
    (Or.inr rfl) (by intro e _; rfl)

/-- C4: the outbound commit envelope built by `HandleRepoEvent` preserves the
repo DID, prev, rev, since and commit fields; when the repo slice exceeds
1,000,000 bytes or the event carries more than 200 ops it has `tooBig = true`
with blocks and ops nulled out, and otherwise `tooBig = false` with blocks
and ops passed through. -/
theorem firehose_truncation (did : String) (evt : RepoEvent) :
    (HandleRepoEvent did evt).repo = did ∧
    (HandleRepoEvent did evt).prev = evt.oldRoot ∧
    (HandleRepoEvent did evt).rev = evt.rev ∧
    (HandleRepoEvent did evt).since = evt.since ∧
    (HandleRepoEvent did evt).commit = evt.newRoot ∧
    (if MaxEventSliceLength < evt.repoSlice.length ∨ MaxOpsSliceLength < evt.ops.length
     then
       (HandleRepoEvent did evt).tooBig = true ∧
       (HandleRepoEvent did evt).blocks = none ∧
       (HandleRepoEvent did evt).ops = none
     else
       (HandleRepoEvent did evt).tooBig = false ∧
       (HandleRepoEvent did evt).blocks = some evt.repoSlice ∧
       (HandleRepoEvent did evt).ops = some (evt.ops.map opToOutOp)) := by
  unfold HandleRepoEvent
  simp only [List.length_map]
  by_cases h : MaxEventSliceLength < evt.repoSlice.length ∨ MaxOpsSliceLength < evt.ops.length
  · simp [h]
  · simp [h]

/-- The five-actor population of scenario S1: UIDs 1..5 with UID 3
tombstoned. -/
def listUsers : List BgsUser :=
  [⟨1, "did:1", false, false⟩, ⟨2, "did:2", false, false⟩, ⟨3, "did:3", true, false⟩,
   ⟨4, "did:4", false, false⟩, ⟨5, "did:5", false, false⟩]

/-- C2 counterexample: with UID 3 tombstoned, `listRepos(cursor="2", limit=2)`
returns the repos of UIDs 4 and 5 but cursor `"4"` — the parsed cursor plus
the page length — not `"5"`, the last returned UID rendered in base 10. -/
theorem listRepos_cursor_counterexample :
    handleComAtprotoSyncListRepos (fun n => toString n) listUsers "2" 2
      = Except.ok ([("did:4", "4"), ("did:5", "5")], some "4") ∧
    ("4" : String) ≠ "5" := by
  constructor
  · decide
  · decide

/-- C2 (amended): whenever the cursor parses to `c` and the page query is
non-empty, the response lists the selected `(did, head)` pairs and its cursor
is `c` plus the number of returned repos, rendered in base 10; this equals
the last returned UID only when the returned UIDs are exactly the
consecutive integers following `c`. -/
theorem listRepos_cursor_amended (roots : Nat → String) (users : List BgsUser)
    (cursor : String) (limit : Nat) (c : Int)
    (hc : (if cursor = "" then some (0 : Int) else parseBase10 cursor) = some c)
    (hne : listReposSelect users c limit ≠ []) :
    handleComAtprotoSyncListRepos roots users cursor limit
      = Except.ok ((listReposSelect users c limit).map (fun u => (u.did, roots u.id)),
          some (toString (c + ((listReposSelect users c limit).length : Int)))) := by
  unfold handleComAtprotoSyncListRepos
  rw [hc]
  simp [hne]

/-- Witness for the amended C2 at the S1 population with an empty cursor. -/
theorem listRepos_cursor_amended_witness :
    handleComAtprotoSyncListRepos (fun n => toString n) listUsers "" 2
      = Except.ok ((listReposSelect listUsers 0 2).map (fun u => (u.did, toString u.id)),
          some (toString ((0 : Int) + ((listReposSelect listUsers 0 2).length : Int)))) :=
  listRepos_cursor_amended (fun n => toString n) listUsers "" 2 0 rfl (by decide)

/-- C8 counterexample: a non-integer listRepos cursor produces a plain error,
which echo surfaces as HTTP 500, not 400. -/
theorem bad_cursor_not_400 :
    handleComAtprotoSyncListRepos (fun _ => "") [] "abc" 50
      = Except.error (HErr.plain "invalid cursor") ∧
    httpStatus (HErr.plain "invalid cursor") ≠ 400 := by
  constructor
  · decide
  · decide

/-- C8 (amended): of the three validation failures, only the requestCrawl
hostname-with-scheme check is an explicit `echo.HTTPError` with status 400;
a non-integer listRepos cursor and an undecodable getRecord commit CID are
plain errors, which echo surfaces as HTTP 500. -/
theorem validation_errors_amended (env : CrawlEnv) (users : List BgsUser)
    (roots : Nat → String) (limit : Nat) (host cursor commit : String)
    (cidOk : String → Bool) (u : BgsUser)
    (hhost : hasPrefixB host "https://" = true)
    (hcur1 : cursor ≠ "") (hcur2 : parseBase10 cursor = none)
    (hcommit1 : commit ≠ "") (hcommit2 : cidOk commit = false)
    (hu1 : u.tombstoned = false) (hu2 : u.takenDown = false) :
    handleComAtprotoSyncRequestCrawl env host
      = some (HErr.http 400 "must pass domain without protocol scheme") ∧
    handleComAtprotoSyncListRepos roots users cursor limit
      = Except.error (HErr.plain "invalid cursor") ∧
    handleComAtprotoSyncGetRecord [u] cidOk true "app.bsky.feed.post" commit u.did "rk"
      = Except.error (HErr.plain "failed to decode commit cid") ∧
    httpStatus (HErr.http 400 "must pass domain without protocol scheme") = 400 ∧
    httpStatus (HErr.plain "invalid cursor") = 500 ∧
    httpStatus (HErr.plain "failed to decode commit cid") = 500 := by
  have hne : ¬(host = "") := by
    intro h
    rw [h] at hhost
    exact absurd hhost (by decide)
  refine ⟨?_, ?_, ?_, rfl, rfl, rfl⟩
  · simp [handleComAtprotoSyncRequestCrawl, hne, hhost]
  · simp [handleComAtprotoSyncListRepos, hcur1, hcur2]
  · simp [handleComAtprotoSyncGetRecord, hu1, hu2, hcommit1, hcommit2]

/-- Witness for the amended C8 at scenario S2's hostname, cursor "abc" and an
undecodable commit parameter. -/
theorem validation_errors_amended_witness :
    handleComAtprotoSyncRequestCrawl ⟨fun _ => true, fun _ => false, fun _ => true, true⟩
        "https://example.com"
      = some (HErr.http 400 "must pass domain without protocol scheme") ∧
    handleComAtprotoSyncListRepos (fun _ => "") [] "abc" 50
      = Except.error (HErr.plain "invalid cursor") ∧
    handleComAtprotoSyncGetRecord [⟨1, "did:u", false, false⟩] (fun _ => false) true
        "app.bsky.feed.post" "zzz" "did:u" "rk"
      = Except.error (HErr.plain "failed to decode commit cid") ∧
    httpStatus (HErr.http 400 "must pass domain without protocol scheme") = 400 ∧
    httpStatus (HErr.plain "invalid cursor") = 500 ∧
    httpStatus (HErr.plain "failed to decode commit cid") = 500 :=
  validation_errors_amended ⟨fun _ => true, fun _ => false, fun _ => true, true⟩ []
    (fun _ => "") 50 "https://example.com" "abc" "zzz" (fun _ => false)
    ⟨1, "did:u", false, false⟩ (by decide) (by decide) (by decide) (by decide) rfl rfl rfl

/-- A mapped table keeps its counts for any predicate the map preserves. -/
theorem countP_map_of_pred_inv {α : Type} (g : α → α) (p : α → Bool)
    (l : List α) (h : ∀ a ∈ l, p (g a) = p a) : (l.map g).countP p = l.countP p := by
  induction l with
  | nil => rfl
  | cons a t ih =>
    rw [List.map_cons, List.countP_cons, List.countP_cons,
      h a (List.mem_cons_self a t), ih (fun x hx => h x (List.mem_cons_of_mem a hx))]

/-- C10: a post create arriving for a `(user, rkey)` pair that already has a
row — in particular a duplicate create over a row with `missing = false` —
does not error: it takes the `(rkey, author)`-keyed upsert path (the same one
used for missing-placeholder upgrades), which keeps every primary key and the
per-key row count unchanged (so `(UID, rkey)` uniqueness is preserved),
overwrites the row's attributes with the new record's values, and allocates
no new row. -/
theorem duplicate_post_create_upsert (db : IndexDB) (user : Nat) (rkey rcid : String)
    (replyTo : Nat) (old : FeedPost)
    (hmem : old ∈ db.posts) (hrk : old.rkey = rkey) (hau : old.author = user)
    (hmiss : old.missing = false) (hid : ∀ p ∈ db.posts, p.id ≠ 0) :
    ((handleRecordCreateFeedPost db user rkey rcid replyTo).posts.map FeedPost.id
        = db.posts.map FeedPost.id) ∧
    (handleRecordCreateFeedPost db user rkey rcid replyTo).posts.countP
        (fun p => p.rkey == rkey && p.author == user)
      = db.posts.countP (fun p => p.rkey == rkey && p.author == user) ∧
    (∀ q ∈ (handleRecordCreateFeedPost db user rkey rcid replyTo).posts,
        (q.rkey == rkey && q.author == user) = true →
          q.cid = rcid ∧ q.replyTo = replyTo ∧ q.missing = false ∧ q.deleted = false) ∧
    (handleRecordCreateFeedPost db user rkey rcid replyTo).nextPostId = db.nextPostId := by
  have hpred : (fun p : FeedPost => p.rkey == rkey && p.author == user) old = true := by
    simp [hrk, hau]
  obtain ⟨p0, hp0⟩ : ∃ p0,
      db.posts.find? (fun p => p.rkey == rkey && p.author == user) = some p0 := by
    cases hf : db.posts.find? (fun p => p.rkey == rkey && p.author == user) with
    | none => exact absurd hpred (by simpa using List.find?_eq_none.mp hf old hmem)
    | some p0 => exact ⟨p0, rfl⟩
  have hp0mem : p0 ∈ db.posts := List.mem_of_find?_eq_some hp0
  have hp0id : p0.id ≠ 0 := hid p0 hp0mem
  have hred : handleRecordCreateFeedPost db user rkey rcid replyTo =
      { db with posts := db.posts.map (fun p =>
          if p.rkey == rkey && p.author == user then
            { id := p.id, author := user, rkey := rkey, cid := rcid, replyTo := replyTo,
              deleted := false, missing := false, upCount := 0 }
          else p) } := by
    unfold handleRecordCreateFeedPost
    rw [hp0]
    simp only [Option.getD_some]
    rw [if_pos hp0id]
  rw [hred]
  refine ⟨?_, ?_, ?_, rfl⟩
  · rw [List.map_map]
    apply List.map_congr_left
    intro p _
    by_cases hc : (p.rkey == rkey && p.author == user) = true
    · simp [Function.comp, hc]
    · simp [Function.comp, hc]
  · apply countP_map_of_pred_inv
    intro p _
    by_cases hc : (p.rkey == rkey && p.author == user) = true
    · simp only [hc, if_true]
      simp [hc]
    · simp [hc]
  · intro q hq hq2
    obtain ⟨p, _, hfp⟩ := List.mem_map.mp hq
    by_cases hc : (p.rkey == rkey && p.author == user) = true
    · rw [if_pos hc] at hfp
      subst hfp
      exact ⟨rfl, rfl, rfl, rfl⟩
    · rw [if_neg hc] at hfp
      subst hfp
      exact absurd hq2 hc

/-- A one-post store whose row for `(author 9, rkey "rk")` is a genuine
(`missing = false`) post. -/
def postDb0 : IndexDB :=
  { actors := [], posts := [⟨1, 9, "rk", "oldcid", 0, false, false, 0⟩], votes := [],
    reposts := [], follows := [], nextVoteId := 1, nextPostId := 2 }

/-- Witness for C10: a duplicate create over the genuine row of `postDb0`. -/
theorem duplicate_post_create_upsert_witness :
    ((handleRecordCreateFeedPost postDb0 9 "rk" "newcid" 0).posts.map FeedPost.id
        = postDb0.posts.map FeedPost.id) ∧
    (handleRecordCreateFeedPost postDb0 9 "rk" "newcid" 0).posts.countP
        (fun p => p.rkey == "rk" && p.author == 9)
      = postDb0.posts.countP (fun p => p.rkey == "rk" && p.author == 9) ∧
    (∀ q ∈ (handleRecordCreateFeedPost postDb0 9 "rk" "newcid" 0).posts,
        (q.rkey == "rk" && q.author == 9) = true →
          q.cid = "newcid" ∧ q.replyTo = 0 ∧ q.missing = false ∧ q.deleted = false) ∧
    (handleRecordCreateFeedPost postDb0 9 "rk" "newcid" 0).nextPostId = postDb0.nextPostId :=
  duplicate_post_create_upsert postDb0 9 "rk" "newcid" 0
    ⟨1, 9, "rk", "oldcid", 0, false, false, 0⟩ (by decide) rfl rfl rfl (by decide)
